import Mathlib

/-!
Shallow embedding of the PostScript special handler of dvisvgm
(`PsSpecialHandler.cpp`): clip stack with save/gsave scopes, stroke
emission, clip-path replacement, image scaling, and shading-mesh
processing.  Numeric values are modelled as rationals, SVG output as a
small XML element type, and geometric collaborators (path booleans,
patch approximation) as explicit function records.
-/

set_option maxHeartbeats 1000000

namespace PsSpec

/-- Winding-rule tag of a graphics path (nonzero or even-odd fill algorithm). -/
inductive WindingRule where
  | nonzero
  | evenodd
deriving DecidableEq, Repr

/-- A single path command as accumulated by
`PsSpecialHandler::moveto/lineto/curveto/closepath`. -/
inductive PathCmd where
  | moveto (x y : ℚ)
  | lineto (x y : ℚ)
  | cubicto (x1 y1 x2 y2 x3 y3 : ℚ)
  | closepath
deriving DecidableEq, Repr

/-- A graphics path: ordered command list plus its winding-rule tag. -/
structure Path where
  cmds : List PathCmd
  winding : WindingRule
deriving DecidableEq, Repr

instance : Inhabited Path := ⟨⟨[], WindingRule.nonzero⟩⟩

/-- An entry of `PsSpecialHandler::ClippingStack`: optional clip path,
optional prepended-path snapshot, monotonically assigned path identifier
(0 = none), and save-scope identifier (≥ 0 for `save`-pushed entries,
-1 for `gsave`-pushed ones).  Field defaults model the
default-constructed `Entry()`. -/
structure Entry where
  path : Option Path := none
  prependedPath : Option Path := none
  pathID : Nat := 0
  saveID : Int := -1
deriving DecidableEq, Repr

instance : Inhabited Entry := ⟨{}⟩

/-- The clipping stack: entries (head = top of `std::stack`) together with
the monotonically increasing `_maxID` counter used to mint fresh path
identifiers. -/
structure ClippingStack where
  stack : List Entry := []
  maxID : Nat := 0
deriving DecidableEq, Repr

instance : Inhabited ClippingStack := ⟨{}⟩

namespace ClippingStack

/-- `ClippingStack::path()`: the clip path of the top entry, if any. -/
def path (cs : ClippingStack) : Option Path :=
  match cs.stack with
  | [] => none
  | e :: _ => e.path

/-- `ClippingStack::prependedPath()`: the prepended-path snapshot of the
top entry, if any. -/
def prependedPath (cs : ClippingStack) : Option Path :=
  match cs.stack with
  | [] => none
  | e :: _ => e.prependedPath

/-- `ClippingStack::topID()`: the path identifier of the top entry
(0 when the stack is empty or the top entry carries no path). -/
def topID (cs : ClippingStack) : Nat :=
  match cs.stack with
  | [] => 0
  | e :: _ => e.pathID

/-- `ClippingStack::pushEmptyPath()`: pushes a no-clip entry only if the
stack is non-empty. -/
def pushEmptyPath (cs : ClippingStack) : ClippingStack :=
  if cs.stack = [] then cs
  else { cs with stack := ({} : Entry) :: cs.stack }

/-- `ClippingStack::push(path, saveID)`: pushes a new entry carrying the
given path (a no-clip entry if the path is empty, otherwise minting a
fresh identifier) and carries forward the top entry's prepended-path
snapshot. -/
def push (cs : ClippingStack) (p : Path) (saveID : Int) : ClippingStack :=
  let pp : Option Path :=
    match cs.stack with
    | [] => none
    | e :: _ => e.prependedPath
  if p.cmds = [] then
    { cs with stack := { prependedPath := pp, saveID := saveID } :: cs.stack }
  else
    { stack := { path := some p, prependedPath := pp, pathID := cs.maxID + 1,
                 saveID := saveID } :: cs.stack,
      maxID := cs.maxID + 1 }

/-- `ClippingStack::pop(saveID, grestoreall)`: the three pop policies of
the source (grestore, grestoreall, restore). -/
def pop (cs : ClippingStack) (saveID : Int) (grestoreall : Bool) : ClippingStack :=
  if cs.stack = [] then cs
  else if saveID < 0 then
    let st1 :=
      match cs.stack with
      | [] => []
      | e :: rest => if e.saveID < 0 then rest else e :: rest
    let st2 := if grestoreall then st1.dropWhile (fun e => decide (e.saveID < 0)) else st1
    { cs with stack := st2 }
  else
    let st1 := cs.stack.dropWhile (fun e => decide (e.saveID ≠ saveID))
    { cs with stack := st1.tail }

/-- `ClippingStack::removePrependedPath()`. -/
def removePrependedPath (cs : ClippingStack) : ClippingStack :=
  match cs.stack with
  | [] => cs
  | e :: rest => { cs with stack := { e with prependedPath := none } :: rest }

/-- `ClippingStack::replace(path)`: replaces the top path by a new one,
returning whether the stored path actually changed. -/
def replace (cs : ClippingStack) (p : Path) : ClippingStack × Bool :=
  match cs.stack with
  | [] => (cs.push p (-1), true)
  | e :: rest =>
    if e.path = some p then (cs, false)
    else ({ stack := { e with path := some p, pathID := cs.maxID + 1 } :: rest,
            maxID := cs.maxID + 1 }, true)

/-- `ClippingStack::dup(saveID)`: duplicates the top entry (or pushes a
default entry if the stack is empty) and tags the copy with `saveID`. -/
def dup (cs : ClippingStack) (saveID : Int) : ClippingStack :=
  { cs with stack := { (cs.stack.headD {}) with saveID := saveID } :: cs.stack }

/-- `ClippingStack::setPrependedPath()`. -/
def setPrependedPath (cs : ClippingStack) : ClippingStack :=
  match cs.stack with
  | [] => cs
  | e :: rest => { cs with stack := { e with prependedPath := e.path } :: rest }

end ClippingStack

/-- `PsSpecialHandler::newpath(p)`: clears the accumulated path; if the
first parameter is positive (call originated from the PostScript
`newpath` operator) it also removes the pending prepended-path snapshot. -/
def newpath (p0 : ℚ) (path : Path) (cs : ClippingStack) : Path × ClippingStack :=
  ( ⟨[], path.winding⟩,
    if 0 < p0 then cs.removePrependedPath else cs )

/-- One `gsave`/`grestore` step on the clipping stack:
`PsSpecialHandler::gsave` calls `dup()` (saveID -1),
`PsSpecialHandler::grestore` calls `pop()` (saveID -1, no grestoreall). -/
def gsOp (cs : ClippingStack) (isGsave : Bool) : ClippingStack :=
  if isGsave then cs.dup (-1) else cs.pop (-1) false

/-- Runs a sequence of `gsave` (`true`) / `grestore` (`false`) operations. -/
def gsRun (cs : ClippingStack) (ops : List Bool) : ClippingStack :=
  ops.foldl gsOp cs

/-- `prefixOK k ops` holds when, starting with `k` pending `gsave`s, every
`grestore` in `ops` is preceded by more `gsave`s than `grestore`s
(the prefix condition of a balanced sequence). -/
def prefixOK : Nat → List Bool → Bool
  | _, [] => true
  | k, true :: rest => prefixOK (k + 1) rest
  | 0, false :: _ => false
  | k + 1, false :: rest => prefixOK k rest

/-- A balanced `gsave`/`grestore` sequence: equally many of each, and no
prefix with more `grestore`s than `gsave`s. -/
def balanced (ops : List Bool) : Prop :=
  prefixOK 0 ops = true ∧ ops.count true = ops.count false

instance (ops : List Bool) : Decidable (balanced ops) := by
  unfold balanced; infer_instance

/-- An affine transformation matrix ((a,c,e),(b,d,f)) mapping
(x,y) to (a x + c y + e, b x + d y + f); the representation produced by
`create_matrix` from a PostScript matrix [a b c d e f]. -/
structure Matrix where
  a : ℚ
  b : ℚ
  c : ℚ
  d : ℚ
  e : ℚ
  f : ℚ
deriving DecidableEq, Repr

namespace Matrix

/-- The identity transformation. -/
def identity : Matrix := ⟨1, 0, 0, 1, 0, 0⟩

instance : Inhabited Matrix := ⟨identity⟩

/-- `Matrix::isIdentity()`. -/
def isIdentity (m : Matrix) : Bool := decide (m = identity)

/-- Applies the affine map to a point. -/
def apply (m : Matrix) (x y : ℚ) : ℚ × ℚ :=
  (m.a * x + m.c * y + m.e, m.b * x + m.d * y + m.f)

end Matrix

/-- Transforms a single path command by an affine matrix. -/
def PathCmd.transform (m : Matrix) : PathCmd → PathCmd
  | .moveto x y => .moveto (m.apply x y).1 (m.apply x y).2
  | .lineto x y => .lineto (m.apply x y).1 (m.apply x y).2
  | .cubicto x1 y1 x2 y2 x3 y3 =>
      .cubicto (m.apply x1 y1).1 (m.apply x1 y1).2
        (m.apply x2 y2).1 (m.apply x2 y2).2
        (m.apply x3 y3).1 (m.apply x3 y3).2
  | .closepath => .closepath

/-- `GraphicsPath::transform(matrix)`: transforms all points of the path. -/
def Path.transform (p : Path) (m : Matrix) : Path :=
  ⟨p.cmds.map (PathCmd.transform m), p.winding⟩

/-- Modelled from the spec: `GraphicsPath::isDot` (defined in the
collaborating geometry library, not part of this translation unit) tests
whether the path degenerates to a single zero-length point and yields that
point. -/
def isDot (p : Path) : Option (ℚ × ℚ) :=
  match p.cmds with
  | [PathCmd.moveto x y] => some (x, y)
  | [PathCmd.moveto x y, PathCmd.lineto x2 y2] =>
      if x = x2 ∧ y = y2 then some (x, y) else none
  | [PathCmd.moveto x y, PathCmd.closepath] => some (x, y)
  | _ => none

/-- Value of an emitted XML attribute: a number, a string, a path
geometry (the `d` attribute), or a number list (dash arrays). -/
inductive AttrVal where
  | num (q : ℚ)
  | str (s : String)
  | path (p : Path)
  | numList (qs : List ℚ)
deriving DecidableEq, Repr

/-- An emitted SVG element: name, attributes in emission order, children. -/
inductive XMLElem where
  | elem (name : String) (attrs : List (String × AttrVal)) (children : List XMLElem)

/-- The element's tag name. -/
def XMLElem.name : XMLElem → String
  | .elem n _ _ => n

/-- The element's attribute list. -/
def XMLElem.attrs : XMLElem → List (String × AttrVal)
  | .elem _ a _ => a

/-- The element's child list. -/
def XMLElem.children : XMLElem → List XMLElem
  | .elem _ _ c => c

/-- `XMLElement::addAttribute`: appends an attribute. -/
def XMLElem.addAttr (e : XMLElem) (a : String × AttrVal) : XMLElem :=
  match e with
  | .elem n as cs => .elem n (as ++ [a]) cs

/-- `css_blendmode_name(mode)`: CSS name of a blend-mode index, or the
empty string when out of range. -/
def cssBlendmodeName (mode : Int) : String :=
  if mode = 0 then "normal"
  else if mode = 1 then "multiply"
  else if mode = 2 then "screen"
  else if mode = 3 then "overlay"
  else if mode = 4 then "soft-light"
  else if mode = 5 then "hard-light"
  else if mode = 6 then "color-dodge"
  else if mode = 7 then "color-burn"
  else if mode = 8 then "darken"
  else if mode = 9 then "lighten"
  else if mode = 10 then "difference"
  else if mode = 11 then "exclusion"
  else if mode = 12 then "hue"
  else if mode = 13 then "saturation"
  else if mode = 14 then "color"
  else if mode = 15 then "luminosity"
  else ""

/-- The stroke-relevant part of the PostScript graphics state held by
`PsSpecialHandler` (`_linewidth`, `_linecap`, `_linejoin`, `_miterlimit`,
`_strokealpha`, `_blendmode`, `_dashpattern`, `_dashoffset`) together
with the current transformation matrix supplied by the actions
collaborator. -/
structure GState where
  linewidth : ℚ := 1
  linecap : Int := 0
  linejoin : Int := 0
  miterlimit : ℚ := 4
  strokealpha : ℚ × ℚ := (1, 1)
  blendmode : Int := 0
  dashpattern : List ℚ := []
  dashoffset : ℚ := 0
  matrix : Matrix := Matrix.identity
deriving DecidableEq, Repr

/-- The path actually drawn by `PsSpecialHandler::stroke`: the
accumulated path, transformed by the current matrix when it is not the
identity, with the pending prepended clip path prepended when present. -/
def strokeInputPath (m : Matrix) (cs : ClippingStack) (p : Path) : Path :=
  let p1 := if m.isIdentity then p else p.transform m
  match cs.prependedPath with
  | some pp => ⟨pp.cmds ++ p1.cmds, p1.winding⟩
  | none => p1

/-- Element construction of `PsSpecialHandler::stroke`: returns the
emitted element (none when nothing is drawn).  A zero-length path yields
a filled circle only for round caps; otherwise a stroked path element
with the conditional attributes of the source is built.  Note that the
source selects the `stroke-linejoin` value by testing `_linecap`.
`color` is the SVG color string of the current color; `savenode` is true
while output is redirected into a pattern definition (`_savenode`). -/
def stroke (gs : GState) (color : String) (cs : ClippingStack)
    (savenode : Bool) (p : Path) : Option XMLElem :=
  if p.cmds = [] ∧ cs.prependedPath = none then none
  else
    let pp := strokeInputPath gs.matrix cs p
    let base : Option XMLElem :=
      match isDot pp with
      | some (x, y) =>
        if gs.linecap = 1 then
          some (.elem "circle"
            [("cx", .num x), ("cy", .num y), ("r", .num (gs.linewidth / 2)),
             ("fill", .str color)] [])
        else none
      | none =>
        some (.elem "path"
          ([("d", .path pp), ("stroke", .str color), ("fill", .str "none")]
            ++ (if gs.linewidth ≠ 1 then [("stroke-width", .num gs.linewidth)] else [])
            ++ (if gs.miterlimit ≠ 4 then [("stroke-miterlimit", .num gs.miterlimit)] else [])
            ++ (if 0 < gs.linecap then
                  [("stroke-linecap", .str (if gs.linecap = 1 then "round" else "square"))]
                else [])
            ++ (if 0 < gs.linejoin then
                  [("stroke-linejoin", .str (if gs.linecap = 1 then "round" else "bevel"))]
                else [])
            ++ (if gs.strokealpha.1 < 1 ∨ gs.strokealpha.2 < 1 then
                  [("stroke-opacity", .num (gs.strokealpha.1 * gs.strokealpha.2))]
                else [])
            ++ (if 0 < gs.blendmode ∧ gs.blendmode < 16 then
                  [("style", .str ("mix-blend-mode:" ++ cssBlendmodeName gs.blendmode))]
                else [])
            ++ (if gs.dashpattern ≠ [] then
                  [("stroke-dasharray", .numList gs.dashpattern)]
                    ++ (if gs.dashoffset ≠ 0 then
                          [("stroke-dashoffset", .num gs.dashoffset)]
                        else [])
                else [])) [])
    match base, cs.path with
    | some e, some _ =>
        some (if savenode then e
              else e.addAttr ("clip-path", .str ("url(#clip" ++ toString cs.topID ++ ")")))
    | some e, none => some e
    | none, _ => none

/-- File types handled by `PsSpecialHandler::imgfile`. -/
inductive FileType where
  | EPS
  | PDF
  | SVG
  | BITMAP
deriving DecidableEq, Repr

/-- Scale-factor computation of `PsSpecialHandler::imgfile`: from the
bounding box (llx,lly)-(urx,ury) and the optional `rwi`/`rhi` attributes
(tenths of a point), following the source's guards and the
mirror-the-other-axis defaulting; `none` models the early returns. -/
def imgfileScale (llx lly urx ury : ℚ) (rwiAttr rhiAttr : Option ℚ) :
    Option (ℚ × ℚ) :=
  let rwi : ℚ := match rwiAttr with | some v => v / 10 | none => -1
  let rhi : ℚ := match rhiAttr with | some v => v / 10 | none => -1
  if rwi = 0 ∨ rhi = 0 ∨ urx - llx = 0 ∨ ury - lly = 0 then none
  else
    let sx := rwi / |llx - urx|
    let sy := rhi / |lly - ury|
    if sx = 0 ∨ sy = 0 then none
    else
      let sx2 := if sx < 0 then sy else sx
      let sy2 := if sy < 0 then sx2 else sy
      if sx2 < 0 then some (1, 1) else some (sx2, sy2)

/-- The final per-axis scale factors applied by `imgfile` to the image
transform: for EPS and PDF content the vertical factor's sign is
inverted to adapt the orientation of y-coordinates. -/
def imgfileScaleSigned (ft : FileType) (llx lly urx ury : ℚ)
    (rwiAttr rhiAttr : Option ℚ) : Option (ℚ × ℚ) :=
  (imgfileScale llx lly urx ury rwiAttr rhiAttr).map
    (fun s => (s.1, if ft = FileType.EPS ∨ ft = FileType.PDF then -s.2 else s.2))

/-- Modelled from the spec: the boolean polygon-clipping collaborator
(`PathClipper`, out of scope of this translation unit) supplying path
union (`unite`) and intersection (`intersect`). -/
structure PathClipper where
  unite : Path → Path → Path
  intersect : Path → Path → Path

/-- A trivial concrete instantiation of the clipping collaborator used
for concrete evaluations: both operations return their second argument. -/
def trivClipper : PathClipper := ⟨fun _ p => p, fun _ p => p⟩

/-- `PsSpecialHandler::clip(path, evenodd)`: tags the path with the
winding rule, transforms it by the current matrix, unites the pending
prepended path when present, replaces the active clip (with geometric
intersection in precise mode when a previous clip exists) and, on an
actual change, builds the emitted `clipPath` definition element.
`mode` is the `COMPUTE_CLIPPATHS_INTERSECTIONS` configuration flag. -/
def clipOp (mode : Bool) (pc : PathClipper) (m : Matrix) (cs : ClippingStack)
    (p : Path) (evenodd : Bool) : ClippingStack × Option XMLElem :=
  if p.cmds = [] then (cs, none)
  else
    let p1 : Path := ⟨p.cmds, if evenodd then WindingRule.evenodd else WindingRule.nonzero⟩
    let p2 := if m.isIdentity then p1 else p1.transform m
    let p3 := match cs.prependedPath with
      | some pp => pc.unite pp p2
      | none => p2
    let oldID := cs.topID
    let res :=
      if mode = false ∨ oldID < 1 then
        let r := cs.replace p3
        (r.1, r.2, p3)
      else
        let oldPath := (cs.path).getD default
        let ip := pc.intersect oldPath p3
        let r := cs.replace ip
        (r.1, r.2, ip)
    if res.2.1 then
      let pathElem := XMLElem.elem "path"
        ([("d", AttrVal.path res.2.2)]
          ++ (if evenodd then [("clip-rule", AttrVal.str "evenodd")] else [])) []
      let clipElem := XMLElem.elem "clipPath"
        ([("id", AttrVal.str ("clip" ++ toString res.1.topID))]
          ++ (if mode = false ∧ oldID ≠ 0 then
                [("clip-path", AttrVal.str ("url(#clip" ++ toString oldID ++ ")"))]
              else [])) [pathElem]
      (res.1, some clipElem)
    else (res.1, none)

/-- Color spaces accepted by `shfill` (gray, RGB, CMYK). -/
inductive CSpace where
  | gray
  | rgb
  | cmyk
deriving DecidableEq, Repr

/-- Number of color components of a color space. -/
def components : CSpace → Nat
  | .gray => 1
  | .rgb => 3
  | .cmyk => 4

/-- `static_cast<int>` on a rational parameter value
(truncation toward zero). -/
def castInt (q : ℚ) : Int := Int.tdiv q.num q.den

/-- Color-space decoding of `shfill`'s second parameter
(1 = gray, 3 = rgb, 4 = cmyk, anything else defaults to rgb). -/
def decodeColorSpace (q : ℚ) : CSpace :=
  if castInt q = 1 then CSpace.gray
  else if castInt q = 4 then CSpace.cmyk
  else CSpace.rgb

/-- Reads one value from the remaining parameter stream
(`*it++` on the `VectorIterator`); running past the end raises an
iterator error. -/
def take1 (l : List ℚ) : Except Unit (ℚ × List ℚ) :=
  match l with
  | [] => Except.error ()
  | x :: rest => Except.ok (x, rest)

/-- Reads `n` values from the remaining parameter stream. -/
def takeN (n : Nat) (l : List ℚ) : Except Unit (List ℚ × List ℚ) :=
  if n ≤ l.length then Except.ok (l.take n, l.drop n) else Except.error ()

/-- Geometry and vertex colors of a single shading patch after decoding. -/
structure PatchData where
  points : List (ℚ × ℚ)
  colors : List (List ℚ)
deriving DecidableEq, Repr

/-- A vertex of a lattice-triangular mesh row: point plus color. -/
structure Vert where
  x : ℚ
  y : ℚ
  color : List ℚ
deriving DecidableEq, Repr

/-- One emitted patch segment: its outline and interpolated color. -/
abbrev Seg := Path × List ℚ

/-- Modelled from the spec: the patch-approximation collaborator
(`ShadingPatch::setPoints/setColors/approximate` of the
TriangularPatch/TensorProductPatch units, not part of this translation
unit): `inherit` reconstructs a full patch from the previous patch's
trailing edge and the newly supplied data when the edge flag is
positive, `approx` subdivides a patch into colored segments, and
`approxTri` approximates one lattice triangle. -/
structure ShadingCollab where
  inherit : Int → Int → PatchData → PatchData → PatchData
  approx : Int → PatchData → List Seg
  approxTri : Vert → Vert → Vert → List Seg

/-- A trivial concrete instantiation of the shading collaborator used for
concrete evaluations. -/
def trivShading : ShadingCollab :=
  ⟨fun _ _ _ pd => pd, fun _ _ => [], fun _ _ _ => []⟩

/-- Modelled from the spec: `ShadingPatch::numPoints(edgeflag)` — number
of control points supplied in the stream for a patch of the given
PS shading type (4 = free-form triangular, 6 = Coons, 7 = tensor
product); a positive edge flag inherits the shared edge from the
previous patch. -/
def numPoints (τ : Int) (ef : Int) : Nat :=
  if τ = 4 then (if ef = 0 then 3 else 1)
  else if τ = 6 then (if ef = 0 then 12 else 8)
  else if τ = 7 then (if ef = 0 then 16 else 12)
  else 0

/-- Modelled from the spec: `ShadingPatch::numColors(edgeflag)` — number
of vertex colors supplied in the stream for a patch of the given type. -/
def numColors (τ : Int) (ef : Int) : Nat :=
  if τ = 4 then (if ef = 0 then 3 else 1)
  else if τ = 6 ∨ τ = 7 then (if ef = 0 then 4 else 2)
  else 0

/-- Reading loop of `read_patch_data` for free-form triangular patches
(shading type 4): point, color, point, color, ..., skipping the
redundant per-vertex edge flag from the second vertex on. -/
def readTriPoints (comps : Nat) : Nat → Bool → List ℚ →
    Except Unit (List (ℚ × ℚ) × List (List ℚ) × List ℚ)
  | 0, _, l => Except.ok ([], [], l)
  | n + 1, first, l =>
    match (if first then Except.ok l else (take1 l).map Prod.snd) with
    | .error e => .error e
    | .ok l1 =>
      match take1 l1 with
      | .error e => .error e
      | .ok (x, l2) =>
        match take1 l2 with
        | .error e => .error e
        | .ok (y, l3) =>
          match takeN comps l3 with
          | .error e => .error e
          | .ok (c, l4) =>
            match readTriPoints comps n false l4 with
            | .error e => .error e
            | .ok (ps, cls, rest) => .ok ((x, y) :: ps, c :: cls, rest)

/-- Point-reading loop of `read_patch_data` for Coons/tensor-product
patches. -/
def readPoints : Nat → List ℚ → Except Unit (List (ℚ × ℚ) × List ℚ)
  | 0, l => Except.ok ([], l)
  | n + 1, l =>
    match take1 l with
    | .error e => .error e
    | .ok (x, l1) =>
      match take1 l1 with
      | .error e => .error e
      | .ok (y, l2) =>
        match readPoints n l2 with
        | .error e => .error e
        | .ok (ps, rest) => .ok ((x, y) :: ps, rest)

/-- Color-reading loop of `read_patch_data` for Coons/tensor-product
patches. -/
def readColors (comps : Nat) : Nat → List ℚ →
    Except Unit (List (List ℚ) × List ℚ)
  | 0, l => Except.ok ([], l)
  | n + 1, l =>
    match takeN comps l with
    | .error e => .error e
    | .ok (c, l1) =>
      match readColors comps n l1 with
      | .error e => .error e
      | .ok (cls, rest) => .ok (c :: cls, rest)

/-- `read_patch_data`: decodes the control points and vertex colors of a
single patch from the remaining stream, following the per-type format. -/
def readPatchData (τ : Int) (comps : Nat) (ef : Int) (l : List ℚ) :
    Except Unit (PatchData × List ℚ) :=
  if τ = 4 then
    match readTriPoints comps (numPoints τ ef) true l with
    | .error e => .error e
    | .ok (ps, cls, rest) => .ok (⟨ps, cls⟩, rest)
  else
    match readPoints (numPoints τ ef) l with
    | .error e => .error e
    | .ok (ps, l1) =>
      match readColors comps (numColors τ ef) l1 with
      | .error e => .error e
      | .ok (cls, rest) => .ok (⟨ps, cls⟩, rest)

/-- The two recoverable error kinds of mesh decoding: a shading error
(`ShadingException`: unsupported shading type or missing preceding patch)
and an iterator error (`IteratorException`: incomplete shading data). -/
inductive MeshErr where
  | shading
  | iter
deriving DecidableEq, Repr

theorem take1_length {l : List ℚ} {x : ℚ} {rest : List ℚ}
    (h : take1 l = Except.ok (x, rest)) : rest.length < l.length := by
  cases l with
  | nil => simp [take1] at h
  | cons a t =>
    simp only [take1, Except.ok.injEq, Prod.mk.injEq] at h
    simp [← h.2]

theorem takeN_length {n : Nat} {l xs rest : List ℚ}
    (h : takeN n l = Except.ok (xs, rest)) : rest.length ≤ l.length := by
  unfold takeN at h
  split at h
  · simp only [Except.ok.injEq, Prod.mk.injEq] at h
    simp [← h.2]
  · simp at h

theorem readTriPoints_length {comps : Nat} : ∀ (n : Nat) (first : Bool)
    (l : List ℚ) (ps : List (ℚ × ℚ)) (cls : List (List ℚ)) (rest : List ℚ),
    readTriPoints comps n first l = Except.ok (ps, cls, rest) →
    rest.length ≤ l.length := by
  intro n
  induction n with
  | zero =>
    intro first l ps cls rest h
    simp only [readTriPoints, Except.ok.injEq, Prod.mk.injEq] at h
    simp [← h.2.2]
  | succ n ih =>
    intro first l ps cls rest h
    unfold readTriPoints at h
    split at h
    · exact absurd h (by simp)
    case _ l1 heq =>
      have hl1 : l1.length ≤ l.length := by
        split at heq
        · simp only [Except.ok.injEq] at heq; simp [← heq]
        · cases hq : take1 l with
          | error e => simp [hq, Except.map] at heq
          | ok v =>
            simp only [hq, Except.map, Except.ok.injEq] at heq
            have := @take1_length l v.1 v.2 (by simp [hq])
            subst heq
            omega
      split at h
      · exact absurd h (by simp)
      case _ x l2 heq2 =>
        have hl2 := take1_length heq2
        split at h
        · exact absurd h (by simp)
        case _ y l3 heq3 =>
          have hl3 := take1_length heq3
          split at h
          · exact absurd h (by simp)
          case _ c l4 heq4 =>
            have hl4 := takeN_length heq4
            split at h
            · exact absurd h (by simp)
            case _ ps2 cls2 rest2 heq5 =>
              have hr := ih false l4 ps2 cls2 rest2 heq5
              simp only [Except.ok.injEq, Prod.mk.injEq] at h
              obtain ⟨-, -, h3⟩ := h
              subst h3
              omega

theorem readPoints_length : ∀ (n : Nat) (l : List ℚ)
    (ps : List (ℚ × ℚ)) (rest : List ℚ),
    readPoints n l = Except.ok (ps, rest) → rest.length ≤ l.length := by
  intro n
  induction n with
  | zero =>
    intro l ps rest h
    simp only [readPoints, Except.ok.injEq, Prod.mk.injEq] at h
    simp [← h.2]
  | succ n ih =>
    intro l ps rest h
    unfold readPoints at h
    split at h
    · exact absurd h (by simp)
    case _ x l1 heq1 =>
      have hl1 := take1_length heq1
      split at h
      · exact absurd h (by simp)
      case _ y l2 heq2 =>
        have hl2 := take1_length heq2
        split at h
        · exact absurd h (by simp)
        case _ ps2 rest2 heq3 =>
          have hr := ih l2 ps2 rest2 heq3
          simp only [Except.ok.injEq, Prod.mk.injEq] at h
          obtain ⟨-, h3⟩ := h
          subst h3
          omega

theorem readColors_length {comps : Nat} : ∀ (n : Nat) (l : List ℚ)
    (cls : List (List ℚ)) (rest : List ℚ),
    readColors comps n l = Except.ok (cls, rest) → rest.length ≤ l.length := by
  intro n
  induction n with
  | zero =>
    intro l cls rest h
    simp only [readColors, Except.ok.injEq, Prod.mk.injEq] at h
    simp [← h.2]
  | succ n ih =>
    intro l cls rest h
    unfold readColors at h
    split at h
    · exact absurd h (by simp)
    case _ c l1 heq1 =>
      have hl1 := takeN_length heq1
      split at h
      · exact absurd h (by simp)
      case _ cls2 rest2 heq2 =>
        have hr := ih l1 cls2 rest2 heq2
        simp only [Except.ok.injEq, Prod.mk.injEq] at h
        obtain ⟨-, h3⟩ := h
        subst h3
        omega

theorem readPatchData_length {τ : Int} {comps : Nat} {ef : Int}
    {l : List ℚ} {pd : PatchData} {rest : List ℚ}
    (h : readPatchData τ comps ef l = Except.ok (pd, rest)) :
    rest.length ≤ l.length := by
  unfold readPatchData at h
  split at h
  · split at h
    · exact absurd h (by simp)
    case _ ps cls rest2 heq =>
      have := readTriPoints_length (numPoints τ ef) true l ps cls rest2 heq
      simp only [Except.ok.injEq, Prod.mk.injEq] at h
      obtain ⟨-, h3⟩ := h
      subst h3
      omega
  · split at h
    · exact absurd h (by simp)
    case _ ps l1 heq1 =>
      have h1 := readPoints_length (numPoints τ ef) l ps l1 heq1
      split at h
      · exact absurd h (by simp)
      case _ cls rest2 heq2 =>
        have h2 := readColors_length (numColors τ ef) l1 cls rest2 heq2
        simp only [Except.ok.injEq, Prod.mk.injEq] at h
        obtain ⟨-, h3⟩ := h
        subst h3
        omega

/-- `PsSpecialHandler::processSequentialPatchMesh`: streams patches one at
a time.  Per iteration: read the edge flag, create the patch object
(failing with a shading error for unsupported shading types), decode the
patch data (failing with an iterator error on incomplete data), combine
with the previous patch (failing with a shading error when a positive
edge flag has no preceding patch), and emit the approximated segments.
The first error stops processing of the remaining stream; segments
emitted before it are kept. -/
def processSeq (sc : ShadingCollab) (τ : Int) (comps : Nat)
    (prev : Option PatchData) (l : List ℚ) : List Seg × Option MeshErr :=
  match l with
  | [] => ([], none)
  | f :: rest =>
    let ef := castInt f
    if τ = 4 ∨ τ = 6 ∨ τ = 7 then
      match hrp : readPatchData τ comps ef rest with
      | .error _ => ([], some MeshErr.iter)
      | .ok (raw, rest2) =>
        if 0 < ef ∧ prev = none then ([], some MeshErr.shading)
        else
          let patch :=
            match prev with
            | some pv => if 0 < ef then sc.inherit τ ef pv raw else raw
            | none => raw
          let segs := sc.approx τ patch
          let res := processSeq sc τ comps (some patch) rest2
          (segs ++ res.1, res.2)
    else ([], some MeshErr.shading)
termination_by l.length
decreasing_by
  have := readPatchData_length hrp
  simp only [List.length_cons]
  omega

/-- Vertex-row reading loop of
`PsSpecialHandler::processLatticeTriangularPatchMesh`: reads point and
color for each of the row's vertices. -/
def readVertexRow (comps : Nat) : Nat → List ℚ →
    Except Unit (List Vert × List ℚ)
  | 0, l => Except.ok ([], l)
  | n + 1, l =>
    match take1 l with
    | .error e => .error e
    | .ok (x, l1) =>
      match take1 l1 with
      | .error e => .error e
      | .ok (y, l2) =>
        match takeN comps l2 with
        | .error e => .error e
        | .ok (c, l3) =>
          match readVertexRow comps n l3 with
          | .error e => .error e
          | .ok (vs, rest) => .ok (⟨x, y, c⟩ :: vs, rest)

theorem readVertexRow_length {comps : Nat} : ∀ (n : Nat) (l : List ℚ)
    (vs : List Vert) (rest : List ℚ),
    readVertexRow comps n l = Except.ok (vs, rest) → rest.length ≤ l.length := by
  intro n
  induction n with
  | zero =>
    intro l vs rest h
    simp only [readVertexRow, Except.ok.injEq, Prod.mk.injEq] at h
    simp [← h.2]
  | succ n ih =>
    intro l vs rest h
    unfold readVertexRow at h
    split at h
    · exact absurd h (by simp)
    case _ x l1 heq1 =>
      have hl1 := take1_length heq1
      split at h
      · exact absurd h (by simp)
      case _ y l2 heq2 =>
        have hl2 := take1_length heq2
        split at h
        · exact absurd h (by simp)
        case _ c l3 heq3 =>
          have hl3 := takeN_length heq3
          split at h
          · exact absurd h (by simp)
          case _ vs2 rest2 heq4 =>
            have hr := ih l3 vs2 rest2 heq4
            simp only [Except.ok.injEq, Prod.mk.injEq] at h
            obtain ⟨-, h3⟩ := h
            subst h3
            omega

theorem readVertexRow_length_lt {comps : Nat} {n : Nat} {l : List ℚ}
    {vs : List Vert} {rest : List ℚ}
    (h : readVertexRow comps (n + 1) l = Except.ok (vs, rest)) :
    rest.length < l.length := by
  unfold readVertexRow at h
  split at h
  · exact absurd h (by simp)
  case _ x l1 heq1 =>
    have hl1 := take1_length heq1
    split at h
    · exact absurd h (by simp)
    case _ y l2 heq2 =>
      have hl2 := take1_length heq2
      split at h
      · exact absurd h (by simp)
      case _ c l3 heq3 =>
        have hl3 := takeN_length heq3
        split at h
        · exact absurd h (by simp)
        case _ vs2 rest2 heq4 =>
          have hr := readVertexRow_length n l3 vs2 rest2 heq4
          simp only [Except.ok.injEq, Prod.mk.injEq] at h
          obtain ⟨-, h3⟩ := h
          subst h3
          omega

/-- The per-row-pair quad loop of the lattice processor: each adjacent
vertex quadruple produces two triangular sub-patches sharing a diagonal. -/
def triRowSegs (sc : ShadingCollab) : List Vert → List Vert → List Seg
  | v1 :: v2 :: r1, v3 :: v4 :: r2 =>
      sc.approxTri v1 v2 v3 ++ sc.approxTri v2 v3 v4
        ++ triRowSegs sc (v2 :: r1) (v4 :: r2)
  | _, _ => []
termination_by r1 _ => r1.length
decreasing_by
  simp only [List.length_cons]
  omega

/-- The row-streaming loop of
`PsSpecialHandler::processLatticeTriangularPatchMesh` (the row width is
`k + 2`): reads the next row, emits the triangle segments of the two
adjacent rows, and continues with the new row; exhausting the data inside
a row raises an iterator error, exhausting it at a row boundary ends
processing normally. -/
def latticeRows (sc : ShadingCollab) (comps k : Nat) (row1 : List Vert)
    (l : List ℚ) : List Seg × Option MeshErr :=
  match l with
  | [] => ([], none)
  | x :: rest =>
    match hr : readVertexRow comps (k + 2) (x :: rest) with
    | .error _ => ([], some MeshErr.iter)
    | .ok (row2, rest2) =>
      let segs := triRowSegs sc row1 row2
      let res := latticeRows sc comps k row2 rest2
      (segs ++ res.1, res.2)
termination_by l.length
decreasing_by
  have := readVertexRow_length_lt hr
  simpa using this

/-- `PsSpecialHandler::processLatticeTriangularPatchMesh`: reads the row
width (a width below 2 is a no-op), the first vertex row, and then
processes successive adjacent row pairs. -/
def processLattice (sc : ShadingCollab) (comps : Nat) (l : List ℚ) :
    List Seg × Option MeshErr :=
  match l with
  | [] => ([], some MeshErr.iter)
  | v :: rest =>
    let n := castInt v
    if n < 2 then ([], none)
    else
      match readVertexRow comps ((n - 2).toNat + 2) rest with
      | .error _ => ([], some MeshErr.iter)
      | .ok (row1, rest2) => latticeRows sc comps ((n - 2).toNat) row1 rest2

/-- The mesh dispatch of `shfill`: shading type 5 goes to the
lattice-triangular processor, all other types to the sequential patch
processor. -/
def meshProcess (sc : ShadingCollab) (τ : Int) (cspace : CSpace)
    (l : List ℚ) : List Seg × Option MeshErr :=
  if τ = 5 then processLattice sc (components cspace) l
  else processSeq sc τ (components cspace) none l

/-- Outcome of a normally returning `shfill` call: the clipping stack
after the call, the emitted patch segments, and the recoverable
diagnostic reported for a caught mesh error (none if decoding
succeeded). -/
structure ShfillOut where
  clip : ClippingStack
  segs : List Seg
  diag : Option MeshErr
deriving DecidableEq, Repr

/-- The decoded leading part of a `shfill` parameter vector: shading
type, color space, optional bounding-box clip, and the remaining mesh
data. -/
structure ShfillHeader where
  shadingType : Int
  cspace : CSpace
  bbox : Option (ℚ × ℚ × ℚ × ℚ)
  mesh : List ℚ
deriving DecidableEq, Repr

/-- The rectangular clip path built by `shfill` from the bounding-box
coordinates. -/
def bboxQuad (x1 y1 x2 y2 : ℚ) : Path :=
  ⟨[PathCmd.moveto x1 y1, PathCmd.lineto x2 y1, PathCmd.lineto x2 y2,
    PathCmd.lineto x1 y2, PathCmd.closepath], WindingRule.nonzero⟩

/-- Net effect of `shfill` on the clipping stack: when a bounding box is
given, the rectangle is installed through `clip` before mesh processing
and a plain `pop()` follows it; otherwise the stack is untouched. -/
def shfillClipEffect (mode : Bool) (pc : PathClipper) (m : Matrix)
    (cs : ClippingStack) (bb : Option (ℚ × ℚ × ℚ × ℚ)) : ClippingStack :=
  match bb with
  | none => cs
  | some (x1, y1, x2, y2) =>
      ((clipOp mode pc m cs (bboxQuad x1 y1 x2 y2) false).1).pop (-1) false

/-- The header layout of `shfill` as the spec describes it: at least 9
parameters, shading type, color space, an optional background color
(consumed, not rendered), an optional bounding box of 4 coordinates, and
the remaining mesh data; reading past the end of the parameter vector
while decoding the header raises an (uncaught) iterator error.  `none`
models the too-few-parameters early return. -/
def shfillHeaderSpec (params : List ℚ) : Except Unit (Option ShfillHeader) :=
  if params.length < 9 then Except.ok none
  else
    match params with
    | p0 :: p1 :: data0 =>
      let cspace := decodeColorSpace p1
      match take1 data0 with
      | .error e => .error e
      | .ok (bgflag, d1) =>
        match (if bgflag ≠ 0 then (takeN (components cspace) d1).map Prod.snd
               else Except.ok d1) with
        | .error e => .error e
        | .ok d2 =>
          match take1 d2 with
          | .error e => .error e
          | .ok (bbflag, d3) =>
            if bbflag ≠ 0 then
              match take1 d3 with
              | .error e => .error e
              | .ok (x1, d4) =>
                match take1 d4 with
                | .error e => .error e
                | .ok (y1, d5) =>
                  match take1 d5 with
                  | .error e => .error e
                  | .ok (x2, d6) =>
                    match take1 d6 with
                    | .error e => .error e
                    | .ok (y2, d7) =>
                      .ok (some ⟨castInt p0, cspace, some (x1, y1, x2, y2), d7⟩)
            else .ok (some ⟨castInt p0, cspace, none, d3⟩)
    | _ => Except.ok none

/-- `PsSpecialHandler::shfill(params)`: validates the parameter count,
decodes shading type and color space, consumes the optional background
color, installs the optional bounding-box clip through `clip`, processes
the mesh with decoding errors caught and reported as a recoverable
diagnostic, and finally pops the temporary clip if a bounding box was
given.  Header reads past the end of the vector happen outside the
`try` block and propagate as errors. -/
def shfill (mode : Bool) (pc : PathClipper) (sc : ShadingCollab)
    (m : Matrix) (cs : ClippingStack) (params : List ℚ) :
    Except Unit ShfillOut :=
  if params.length < 9 then Except.ok ⟨cs, [], none⟩
  else
    match params with
    | p0 :: p1 :: data0 =>
      let τ := castInt p0
      let cspace := decodeColorSpace p1
      match take1 data0 with
      | .error e => .error e
      | .ok (bgflag, d1) =>
        match (if bgflag ≠ 0 then (takeN (components cspace) d1).map Prod.snd
               else Except.ok d1) with
        | .error e => .error e
        | .ok d2 =>
          match take1 d2 with
          | .error e => .error e
          | .ok (bbflag, d3) =>
            if bbflag ≠ 0 then
              match take1 d3 with
              | .error e => .error e
              | .ok (x1, d4) =>
                match take1 d4 with
                | .error e => .error e
                | .ok (y1, d5) =>
                  match take1 d5 with
                  | .error e => .error e
                  | .ok (x2, d6) =>
                    match take1 d6 with
                    | .error e => .error e
                    | .ok (y2, d7) =>
                      let cs1 := (clipOp mode pc m cs (bboxQuad x1 y1 x2 y2) false).1
                      let res := meshProcess sc τ cspace d7
                      .ok ⟨cs1.pop (-1) false, res.1, res.2⟩
            else
              let res := meshProcess sc τ cspace d3
              .ok ⟨cs, res.1, res.2⟩
    | _ => Except.ok ⟨cs, [], none⟩

/-! ## Theorems -/

theorem dropWhile_saveID {sid : Int} (hsid : 0 ≤ sid) (m : Entry)
    (hm : m.saveID = sid) (below : List Entry) :
    ∀ gsv : List Entry, (∀ e ∈ gsv, e.saveID < 0) →
    (gsv ++ m :: below).dropWhile (fun e => decide (e.saveID ≠ sid)) = m :: below := by
  intro gsv
  induction gsv with
  | nil =>
    intro _
    simp [List.dropWhile, hm]
  | cons e t ih =>
    intro h
    have he : e.saveID < 0 := h e (by simp)
    have hne : e.saveID ≠ sid := by omega
    have hstep : ((e :: t) ++ m :: below).dropWhile (fun x => decide (x.saveID ≠ sid)) =
        (t ++ m :: below).dropWhile (fun x => decide (x.saveID ≠ sid)) := by
      simp [List.dropWhile_cons, hne]
    rw [hstep]
    exact ih (fun x hx => h x (by simp [hx]))

/-- C1 (counterexample): `pop(0, false)` on the stack
[save-entry tag 2, save-entry tag 0] empties the stack.  The claim
predicts that no gsave-origin entry is on top (the top entry is
save-origin with tag 2), so exactly the save-origin entry with tag 0
would be removed, leaving [save-entry tag 2]; the code instead also pops
the save-origin entry with the non-matching tag 2. -/
theorem pop_save_counterexample :
    (ClippingStack.pop ⟨[⟨none, none, 0, 2⟩, ⟨none, none, 0, 0⟩], 0⟩ 0 false).stack = []
    ∧ (ClippingStack.pop ⟨[⟨none, none, 0, 2⟩, ⟨none, none, 0, 0⟩], 0⟩ 0 false).stack
        ≠ [⟨none, none, 0, 2⟩] := by
  decide

/-- C1 (amended): for `saveId ≥ 0`, `pop(saveId, grestoreAll)` pops
entries from the top until the top's scope tag equals `saveId` and then
pops that entry too, regardless of `grestoreAll`; in particular, when
every entry above the matching save-origin entry is gsave-origin, it
removes exactly those gsave-origin entries and the matching entry,
leaving all entries below unchanged (and `_maxID` untouched). -/
theorem pop_save_exact (cs : ClippingStack) (gsv : List Entry) (m : Entry)
    (below : List Entry) (sid : Int) (grall : Bool)
    (hsid : 0 ≤ sid) (hgs : ∀ e ∈ gsv, e.saveID < 0) (hm : m.saveID = sid)
    (hstack : cs.stack = gsv ++ m :: below) :
    (cs.pop sid grall).stack = below ∧ (cs.pop sid grall).maxID = cs.maxID := by
  have hne : cs.stack ≠ [] := by
    rw [hstack]; cases gsv <;> simp
  have hnlt : ¬(sid < 0) := by omega
  unfold ClippingStack.pop
  rw [if_neg hne, if_neg hnlt]
  refine ⟨?_, rfl⟩
  rw [hstack, dropWhile_saveID hsid m hm below gsv hgs]
  rfl

/-- C1 witness. -/
theorem pop_save_exact_witness :
    (ClippingStack.pop ⟨[⟨none, none, 0, -1⟩, ⟨none, none, 5, 7⟩, ⟨none, none, 3, 0⟩], 9⟩
        7 false).stack = [⟨none, none, 3, 0⟩]
    ∧ (ClippingStack.pop ⟨[⟨none, none, 0, -1⟩, ⟨none, none, 5, 7⟩, ⟨none, none, 3, 0⟩], 9⟩
        7 false).maxID = 9 :=
  pop_save_exact ⟨[⟨none, none, 0, -1⟩, ⟨none, none, 5, 7⟩, ⟨none, none, 3, 0⟩], 9⟩
    [⟨none, none, 0, -1⟩] ⟨none, none, 5, 7⟩ [⟨none, none, 3, 0⟩] 7 false
    (by decide) (by decide) (by decide) rfl

/-- C2: duplicating the top entry with `dup` and then running `replace`
(on the new top) leaves the duplicated-from sibling entry — including its
clip geometry and path identifier — and everything below it unchanged:
the resulting stack is some new top entry consed onto the original
stack. -/
theorem dup_replace_preserves_sibling (cs : ClippingStack) (sid : Int)
    (p : Path) (e : Entry) (rest : List Entry) (h : cs.stack = e :: rest) :
    ∃ t, (((cs.dup sid).replace p).1).stack = t :: e :: rest := by
  unfold ClippingStack.dup ClippingStack.replace
  rw [h]
  dsimp
  split
  · exact ⟨_, rfl⟩
  · exact ⟨_, rfl⟩

/-- C2 witness. -/
theorem dup_replace_preserves_sibling_witness :
    ∃ t, ((((⟨[⟨some ⟨[PathCmd.moveto 1 1], WindingRule.nonzero⟩, none, 1, 3⟩], 1⟩ :
        ClippingStack).dup (-1)).replace
          ⟨[PathCmd.moveto 2 2], WindingRule.nonzero⟩).1).stack =
      t :: ⟨some ⟨[PathCmd.moveto 1 1], WindingRule.nonzero⟩, none, 1, 3⟩ :: [] :=
  dup_replace_preserves_sibling
    ⟨[⟨some ⟨[PathCmd.moveto 1 1], WindingRule.nonzero⟩, none, 1, 3⟩], 1⟩ (-1)
    ⟨[PathCmd.moveto 2 2], WindingRule.nonzero⟩
    ⟨some ⟨[PathCmd.moveto 1 1], WindingRule.nonzero⟩, none, 1, 3⟩ [] rfl

theorem gsRun_extra : ∀ (ops : List Bool) (base : List Entry) (mx : Nat)
    (extra : List Entry), (∀ e ∈ extra, e.saveID < 0) →
    prefixOK extra.length ops = true →
    ∃ extra2, (∀ e ∈ extra2, e.saveID < 0) ∧
      extra2.length + ops.count false = extra.length + ops.count true ∧
      gsRun ⟨extra ++ base, mx⟩ ops = ⟨extra2 ++ base, mx⟩ := by
  intro ops
  induction ops with
  | nil =>
    intro base mx extra hE _
    exact ⟨extra, hE, by simp, rfl⟩
  | cons op rest ih =>
    intro base mx extra hE hP
    cases op with
    | true =>
      have hstep : gsOp ⟨extra ++ base, mx⟩ true =
          ⟨({ ((extra ++ base).headD {}) with saveID := -1 } :: extra) ++ base, mx⟩ := by
        simp [gsOp, ClippingStack.dup]
      have hE2 : ∀ e ∈ ({ ((extra ++ base).headD {}) with saveID := -1 } :: extra),
          e.saveID < 0 := by
        intro e he
        rcases List.mem_cons.mp he with h | h
        · subst h; exact (by decide : (-1 : Int) < 0)
        · exact hE e h
      have hP2 : prefixOK ({ ((extra ++ base).headD {}) with saveID := -1 } :: extra).length
          rest = true := by
        simpa [prefixOK] using hP
      obtain ⟨extra2, h1, h2, h3⟩ := ih base mx _ hE2 hP2
      refine ⟨extra2, h1, ?_, ?_⟩
      · simp only [List.count_cons] at h2 ⊢
        simp at h2 ⊢
        omega
      · show gsRun (gsOp ⟨extra ++ base, mx⟩ true) rest = _
        rw [hstep]
        exact h3
    | false =>
      cases extra with
      | nil => simp [prefixOK] at hP
      | cons e ex2 =>
        have he : e.saveID < 0 := hE e (by simp)
        have hstep : gsOp ⟨(e :: ex2) ++ base, mx⟩ false = ⟨ex2 ++ base, mx⟩ := by
          simp [gsOp, ClippingStack.pop, he]
        have hP2 : prefixOK ex2.length rest = true := by
          simpa [prefixOK] using hP
        obtain ⟨extra2, h1, h2, h3⟩ := ih base mx ex2 (fun x hx => hE x (by simp [hx])) hP2
        refine ⟨extra2, h1, ?_, ?_⟩
        · simp only [List.count_cons] at h2 ⊢
          simp at h2 ⊢
          omega
        · show gsRun (gsOp ⟨(e :: ex2) ++ base, mx⟩ false) rest = _
          rw [hstep]
          exact h3

theorem gsRun_balanced (cs : ClippingStack) (ops : List Bool)
    (h : balanced ops) : gsRun cs ops = cs := by
  obtain ⟨h1, h2⟩ := h
  obtain ⟨extra2, -, hlen, hrun⟩ :=
    gsRun_extra ops cs.stack cs.maxID [] (by simp) (by simpa using h1)
  simp only [List.length_nil] at hlen
  have hz : extra2.length = 0 := by omega
  rw [List.length_eq_zero] at hz
  subst hz
  simpa using hrun

/-- C4: a balanced sequence of `gsave` and `grestore` operations (equally
many of each, no prefix with more `grestore`s) with no intervening `save`
leaves the clip stack with the same size and the same top path
identifier it had before the sequence. -/
theorem gsave_grestore_balanced (cs : ClippingStack) (ops : List Bool)
    (h : balanced ops) :
    (gsRun cs ops).stack.length = cs.stack.length ∧
    (gsRun cs ops).topID = cs.topID := by
  rw [gsRun_balanced cs ops h]
  exact ⟨rfl, rfl⟩

/-- C4 witness. -/
theorem gsave_grestore_balanced_witness :
    (gsRun ⟨[⟨some ⟨[PathCmd.moveto 1 1], WindingRule.nonzero⟩, none, 4, 2⟩], 4⟩
        [true, true, false, true, false, false]).stack.length =
      (⟨[⟨some ⟨[PathCmd.moveto 1 1], WindingRule.nonzero⟩, none, 4, 2⟩], 4⟩ :
        ClippingStack).stack.length
    ∧ (gsRun ⟨[⟨some ⟨[PathCmd.moveto 1 1], WindingRule.nonzero⟩, none, 4, 2⟩], 4⟩
        [true, true, false, true, false, false]).topID =
      (⟨[⟨some ⟨[PathCmd.moveto 1 1], WindingRule.nonzero⟩, none, 4, 2⟩], 4⟩ :
        ClippingStack).topID :=
  gsave_grestore_balanced
    ⟨[⟨some ⟨[PathCmd.moveto 1 1], WindingRule.nonzero⟩, none, 4, 2⟩], 4⟩
    [true, true, false, true, false, false] (by decide)

/-- C10: `newpath(p)` always clears the accumulated path; the top clip
entry's prepended-path snapshot is removed exactly when the first
parameter is positive (the call originated from the PostScript `newpath`
operator) and preserved otherwise, while the stack's clip path, top
identifier, and size stay unchanged. -/
theorem newpath_clears_path (p0 : ℚ) (p : Path) (cs : ClippingStack) :
    ((newpath p0 p cs).1).cmds = []
    ∧ ((newpath p0 p cs).2).prependedPath = (if 0 < p0 then none else cs.prependedPath)
    ∧ ((newpath p0 p cs).2).path = cs.path
    ∧ ((newpath p0 p cs).2).topID = cs.topID
    ∧ ((newpath p0 p cs).2).stack.length = cs.stack.length := by
  unfold newpath
  by_cases h0 : 0 < p0 <;>
    cases hcs : cs.stack <;>
      simp [h0, hcs, ClippingStack.removePrependedPath, ClippingStack.prependedPath,
        ClippingStack.path, ClippingStack.topID]

theorem replace_path_eq (cs : ClippingStack) (p : Path) (hp : p.cmds ≠ []) :
    ((cs.replace p).1).path = some p := by
  unfold ClippingStack.replace
  cases hcs : cs.stack with
  | nil =>
    unfold ClippingStack.push
    rw [hcs]
    dsimp
    rw [if_neg hp]
    rfl
  | cons e rest =>
    dsimp
    split
    case isTrue h => rw [ClippingStack.path, hcs, ← h]
    case isFalse h => rfl

theorem replace_prepended_none (cs : ClippingStack) (p : Path)
    (h : cs.prependedPath = none) : ((cs.replace p).1).prependedPath = none := by
  unfold ClippingStack.replace
  cases hcs : cs.stack with
  | nil =>
    unfold ClippingStack.push
    rw [hcs]
    dsimp
    split <;> rfl
  | cons e rest =>
    have he : e.prependedPath = none := by
      rw [ClippingStack.prependedPath, hcs] at h
      exact h
    dsimp
    split
    case isTrue => rwa [ClippingStack.prependedPath, hcs]
    case isFalse => rw [ClippingStack.prependedPath]; exact he

/-- C5: the three behaviors of `ClippingStack::replace(path)` and their
visible consequence in `clip`: (1) on an empty stack a non-empty path is
pushed as a fresh gsave-scoped entry, reporting a change; (2) a path
equal to the stored top path reports "unchanged" and leaves the stack
untouched; (3) otherwise the top entry receives the new path under the
fresh identifier `_maxID + 1`, strictly larger than every identifier on
the stack (given the invariant that stored identifiers never exceed
`_maxID`), reporting a change; and (4) a second `clip` call with an
identical path makes `replace` report "unchanged", so no duplicate
clip-path definition element is emitted. -/
theorem replace_spec :
    (∀ (cs : ClippingStack) (p : Path), cs.stack = [] → p.cmds ≠ [] →
       cs.replace p = ({ stack := [{ path := some p, prependedPath := none,
                                     pathID := cs.maxID + 1, saveID := -1 }],
                         maxID := cs.maxID + 1 }, true))
    ∧ (∀ (cs : ClippingStack) (p : Path) (e : Entry) (rest : List Entry),
         cs.stack = e :: rest → e.path = some p → cs.replace p = (cs, false))
    ∧ (∀ (cs : ClippingStack) (p : Path) (e : Entry) (rest : List Entry),
         cs.stack = e :: rest → e.path ≠ some p →
         (∀ e2 ∈ cs.stack, e2.pathID ≤ cs.maxID) →
         (cs.replace p).2 = true ∧
         ((cs.replace p).1).stack =
           { e with path := some p, pathID := cs.maxID + 1 } :: rest ∧
         ∀ e2 ∈ cs.stack, e2.pathID < ((cs.replace p).1).topID)
    ∧ (∀ (pc : PathClipper) (m : Matrix) (cs : ClippingStack) (p : Path) (eo : Bool),
         m.isIdentity = true → cs.prependedPath = none → p.cmds ≠ [] →
         (clipOp false pc m ((clipOp false pc m cs p eo).1) p eo).2 = none) := by
  refine ⟨?_, ?_, ?_, ?_⟩
  · intro cs p hcs hp
    unfold ClippingStack.replace
    rw [hcs]
    unfold ClippingStack.push
    rw [hcs]
    dsimp
    rw [if_neg hp]
  · intro cs p e rest hcs he
    unfold ClippingStack.replace
    rw [hcs]
    dsimp
    rw [if_pos he]
  · intro cs p e rest hcs he hinv
    rw [hcs] at hinv
    unfold ClippingStack.replace
    rw [hcs]
    dsimp
    rw [if_neg he]
    refine ⟨rfl, rfl, ?_⟩
    intro e2 he2
    have := hinv e2 he2
    have ht : ClippingStack.topID
        ({ stack := { e with path := some p, pathID := cs.maxID + 1 } :: rest,
           maxID := cs.maxID + 1 } : ClippingStack) = cs.maxID + 1 := rfl
    rw [ht]
    omega
  · intro pc m cs p eo hm hpp hp
    have key : ∀ cs2 : ClippingStack, cs2.path = some ⟨p.cmds,
        if eo then WindingRule.evenodd else WindingRule.nonzero⟩ →
        cs2.prependedPath = none →
        (clipOp false pc m cs2 p eo).2 = none := by
      intro cs2 h2 h3
      unfold clipOp
      rw [if_neg hp]
      dsimp
      rw [hm]
      dsimp
      rw [h3]
      dsimp
      have : cs2.replace ⟨p.cmds,
          if eo then WindingRule.evenodd else WindingRule.nonzero⟩ = (cs2, false) := by
        unfold ClippingStack.replace
        cases hcs : cs2.stack with
        | nil => rw [ClippingStack.path, hcs] at h2; exact absurd h2 (by simp)
        | cons e rest =>
          rw [ClippingStack.path, hcs] at h2
          dsimp
          rw [if_pos h2]
      simp [this]
    have h1 : (clipOp false pc m cs p eo).1 =
        (cs.replace ⟨p.cmds,
          if eo then WindingRule.evenodd else WindingRule.nonzero⟩).1 := by
      unfold clipOp
      rw [if_neg hp]
      dsimp
      rw [hm]
      dsimp
      rw [hpp]
      dsimp
      split <;> split <;> rfl
    apply key
    · rw [h1]
      exact replace_path_eq cs _ (by simpa using hp)
    · rw [h1]
      exact replace_prepended_none cs _ hpp

/-- C5 witness. -/
theorem replace_spec_witness :
    ClippingStack.replace ⟨[], 4⟩ ⟨[PathCmd.moveto 1 1], WindingRule.nonzero⟩ =
      ({ stack := [{ path := some ⟨[PathCmd.moveto 1 1], WindingRule.nonzero⟩,
                     prependedPath := none, pathID := 5, saveID := -1 }],
         maxID := 5 }, true)
    ∧ ClippingStack.replace
        ⟨[⟨some ⟨[PathCmd.moveto 1 1], WindingRule.nonzero⟩, none, 1, -1⟩], 1⟩
        ⟨[PathCmd.moveto 1 1], WindingRule.nonzero⟩ =
      (⟨[⟨some ⟨[PathCmd.moveto 1 1], WindingRule.nonzero⟩, none, 1, -1⟩], 1⟩, false)
    ∧ (ClippingStack.replace
        ⟨[⟨some ⟨[PathCmd.moveto 1 1], WindingRule.nonzero⟩, none, 1, -1⟩], 1⟩
        ⟨[PathCmd.moveto 2 2], WindingRule.nonzero⟩).2 = true
    ∧ (clipOp false trivClipper Matrix.identity
        (clipOp false trivClipper Matrix.identity ⟨[], 0⟩
          ⟨[PathCmd.moveto 3 3], WindingRule.nonzero⟩ false).1
        ⟨[PathCmd.moveto 3 3], WindingRule.nonzero⟩ false).2 = none :=
  ⟨replace_spec.1 ⟨[], 4⟩ ⟨[PathCmd.moveto 1 1], WindingRule.nonzero⟩ rfl (by decide),
   replace_spec.2.1 ⟨[⟨some ⟨[PathCmd.moveto 1 1], WindingRule.nonzero⟩, none, 1, -1⟩], 1⟩
     ⟨[PathCmd.moveto 1 1], WindingRule.nonzero⟩
     ⟨some ⟨[PathCmd.moveto 1 1], WindingRule.nonzero⟩, none, 1, -1⟩ [] rfl rfl,
   (replace_spec.2.2.1 ⟨[⟨some ⟨[PathCmd.moveto 1 1], WindingRule.nonzero⟩, none, 1, -1⟩], 1⟩
     ⟨[PathCmd.moveto 2 2], WindingRule.nonzero⟩
     ⟨some ⟨[PathCmd.moveto 1 1], WindingRule.nonzero⟩, none, 1, -1⟩ [] rfl (by decide)
     (by decide)).1,
   replace_spec.2.2.2 trivClipper Matrix.identity ⟨[], 0⟩
     ⟨[PathCmd.moveto 3 3], WindingRule.nonzero⟩ false rfl rfl (by decide)⟩

/-- C3: if the drawn path (after transform and prepending) degenerates to
the single point (x, y), `stroke` emits a filled circle element centered
there with radius `lineWidth/2` when the cap style is round (1), and
emits nothing when the cap style is butt (0) or square (2). -/
theorem stroke_dot_circle (gs : GState) (color : String) (cs : ClippingStack)
    (sn : Bool) (p : Path) (x y : ℚ)
    (hdot : isDot (strokeInputPath gs.matrix cs p) = some (x, y)) :
    (gs.linecap = 1 →
      ∃ el, stroke gs color cs sn p = some el ∧ el.name = "circle" ∧
        ("cx", AttrVal.num x) ∈ el.attrs ∧ ("cy", AttrVal.num y) ∈ el.attrs ∧
        ("r", AttrVal.num (gs.linewidth / 2)) ∈ el.attrs ∧
        ("fill", AttrVal.str color) ∈ el.attrs)
    ∧ ((gs.linecap = 0 ∨ gs.linecap = 2) → stroke gs color cs sn p = none) := by
  have hguard : ¬(p.cmds = [] ∧ cs.prependedPath = none) := by
    rintro ⟨h1, h2⟩
    have hcmds : (strokeInputPath gs.matrix cs p).cmds = [] := by
      unfold strokeInputPath
      rw [h2]
      dsimp only
      split
      · exact h1
      · simp [Path.transform, h1]
    have hnone : isDot (strokeInputPath gs.matrix cs p) = none := by
      unfold isDot
      rw [hcmds]
    rw [hnone] at hdot
    exact absurd hdot (by simp)
  constructor
  · intro hcap
    rcases hcp : cs.path with - | q
    · have hs : stroke gs color cs sn p =
          some (XMLElem.elem "circle"
            [("cx", AttrVal.num x), ("cy", AttrVal.num y),
             ("r", AttrVal.num (gs.linewidth / 2)), ("fill", AttrVal.str color)] []) := by
        unfold stroke
        rw [if_neg hguard]
        dsimp only
        rw [hdot]
        dsimp only
        rw [if_pos hcap, hcp]
      exact ⟨_, hs, rfl, by simp [XMLElem.attrs], by simp [XMLElem.attrs],
        by simp [XMLElem.attrs], by simp [XMLElem.attrs]⟩
    · by_cases hsn : sn
      · have hs : stroke gs color cs sn p =
            some (XMLElem.elem "circle"
              [("cx", AttrVal.num x), ("cy", AttrVal.num y),
               ("r", AttrVal.num (gs.linewidth / 2)), ("fill", AttrVal.str color)] []) := by
          unfold stroke
          rw [if_neg hguard]
          dsimp only
          rw [hdot]
          dsimp only
          rw [if_pos hcap, hcp]
          dsimp only
          rw [if_pos hsn]
        exact ⟨_, hs, rfl, by simp [XMLElem.attrs], by simp [XMLElem.attrs],
          by simp [XMLElem.attrs], by simp [XMLElem.attrs]⟩
      · have hs : stroke gs color cs sn p =
            some ((XMLElem.elem "circle"
              [("cx", AttrVal.num x), ("cy", AttrVal.num y),
               ("r", AttrVal.num (gs.linewidth / 2)), ("fill", AttrVal.str color)]
              []).addAttr
                ("clip-path", AttrVal.str ("url(#clip" ++ toString cs.topID ++ ")"))) := by
          unfold stroke
          rw [if_neg hguard]
          dsimp only
          rw [hdot]
          dsimp only
          rw [if_pos hcap, hcp]
          dsimp only
          rw [if_neg hsn]
        exact ⟨_, hs, rfl, by simp [XMLElem.attrs, XMLElem.addAttr],
          by simp [XMLElem.attrs, XMLElem.addAttr],
          by simp [XMLElem.attrs, XMLElem.addAttr],
          by simp [XMLElem.attrs, XMLElem.addAttr]⟩
  · intro hcap
    have hne1 : ¬(gs.linecap = 1) := by rcases hcap with h | h <;> omega
    unfold stroke
    rw [if_neg hguard]
    dsimp only
    rw [hdot]
    dsimp only
    rw [if_neg hne1]

/-- C3 witness. -/
theorem stroke_dot_circle_witness :
    (∃ el, stroke { linecap := 1, linewidth := 3 } "red" {} false
        ⟨[PathCmd.moveto 2 3], WindingRule.nonzero⟩ = some el ∧
      el.name = "circle" ∧
      ("cx", AttrVal.num 2) ∈ el.attrs ∧ ("cy", AttrVal.num 3) ∈ el.attrs ∧
      ("r", AttrVal.num ((3 : ℚ) / 2)) ∈ el.attrs ∧
      ("fill", AttrVal.str "red") ∈ el.attrs)
    ∧ stroke { linecap := 0, linewidth := 3 } "red" {} false
        ⟨[PathCmd.moveto 2 3], WindingRule.nonzero⟩ = none :=
  ⟨(stroke_dot_circle { linecap := 1, linewidth := 3 } "red" {} false
      ⟨[PathCmd.moveto 2 3], WindingRule.nonzero⟩ 2 3 rfl).1 rfl,
   (stroke_dot_circle { linecap := 0, linewidth := 3 } "red" {} false
      ⟨[PathCmd.moveto 2 3], WindingRule.nonzero⟩ 2 3 rfl).2 (Or.inl rfl)⟩

/-- C6 (code bug): for a non-degenerate path with join style 1 (round)
and cap style 0 (butt), the emitted `stroke-linejoin` value is "bevel",
not "round": the source selects the value by testing `_linecap` instead
of `_linejoin` (PsSpecialHandler.cpp line 690), while the guard of the
attribute correctly tests `_linejoin`. -/
theorem stroke_linejoin_uses_linecap :
    ((stroke { linejoin := 1 } "black" {} false
        ⟨[PathCmd.moveto 0 0, PathCmd.lineto 5 0], WindingRule.nonzero⟩).map
      XMLElem.attrs) =
    some [("d", AttrVal.path ⟨[PathCmd.moveto 0 0, PathCmd.lineto 5 0],
                              WindingRule.nonzero⟩),
          ("stroke", AttrVal.str "black"), ("fill", AttrVal.str "none"),
          ("stroke-linejoin", AttrVal.str "bevel")] := by
  rfl

/-- C8 (counterexample): the claim's example
`llx:0, lly:0, urx:100, ury:50, rwi:200` yields the uniform scale factor
1/5 = 0.2 (rwi is in tenths of a point: 200/10 = 20 pt desired width over
a 100 pt wide box), not 2.0 as the claim states. -/
theorem imgfile_scale_example_counterexample :
    imgfileScale 0 0 100 50 (some 200) none = some (1/5, 1/5)
    ∧ imgfileScaleSigned FileType.EPS 0 0 100 50 (some 200) none =
        some (1/5, -(1/5))
    ∧ imgfileScale 0 0 100 50 (some 200) none ≠ some (2, 2) := by
  refine ⟨?_, ?_, ?_⟩ <;> simp only [imgfileScale, imgfileScaleSigned] <;> norm_num

/-- C8 (amended): the scale factors are computed independently from
`rwi` and `rhi` (tenths of a point) over the box extents; if only one of
them is given — whether it is `rwi` (with `rhi` absent) or `rhi` (with
`rwi` absent) — the other axis mirrors it, so the claim's example yields
the uniform factor 0.2 (not 2.0) on both axes; if neither is given both
factors are 1; and for EPS/PDF content the vertical factor's sign is
inverted. -/
theorem imgfile_scale_spec :
    (∀ llx lly urx ury rwi rhi : ℚ, urx - llx ≠ 0 → ury - lly ≠ 0 →
       0 < rwi → 0 < rhi →
       imgfileScale llx lly urx ury (some rwi) (some rhi) =
         some (rwi / 10 / |llx - urx|, rhi / 10 / |lly - ury|))
    ∧ (∀ llx lly urx ury rwi : ℚ, urx - llx ≠ 0 → ury - lly ≠ 0 → 0 < rwi →
         imgfileScale llx lly urx ury (some rwi) none =
           some (rwi / 10 / |llx - urx|, rwi / 10 / |llx - urx|))
    ∧ (∀ llx lly urx ury rhi : ℚ, urx - llx ≠ 0 → ury - lly ≠ 0 → 0 < rhi →
         imgfileScale llx lly urx ury none (some rhi) =
           some (rhi / 10 / |lly - ury|, rhi / 10 / |lly - ury|))
    ∧ (∀ llx lly urx ury : ℚ, urx - llx ≠ 0 → ury - lly ≠ 0 →
         imgfileScale llx lly urx ury none none = some (1, 1))
    ∧ (∀ (llx lly urx ury : ℚ) (rwiA rhiA : Option ℚ) (sx sy : ℚ),
         imgfileScale llx lly urx ury rwiA rhiA = some (sx, sy) →
         imgfileScaleSigned FileType.EPS llx lly urx ury rwiA rhiA = some (sx, -sy)
         ∧ imgfileScaleSigned FileType.PDF llx lly urx ury rwiA rhiA = some (sx, -sy)
         ∧ imgfileScaleSigned FileType.BITMAP llx lly urx ury rwiA rhiA = some (sx, sy)
         ∧ imgfileScaleSigned FileType.SVG llx lly urx ury rwiA rhiA = some (sx, sy)) := by
  have habs : ∀ a b : ℚ, b - a ≠ 0 → (0 : ℚ) < |a - b| := by
    intro a b h
    have : a - b ≠ 0 := fun hc => h (by linarith [hc])
    exact abs_pos.mpr this
  refine ⟨?_, ?_, ?_, ?_, ?_⟩
  · intro llx lly urx ury rwi rhi hx hy hw hh
    have hax := habs llx urx hx
    have hay := habs lly ury hy
    have hsx : 0 < rwi / 10 / |llx - urx| := by positivity
    have hsy : 0 < rhi / 10 / |lly - ury| := by positivity
    unfold imgfileScale
    dsimp only
    rw [if_neg (by push_neg; refine ⟨by positivity, by positivity, hx, hy⟩)]
    rw [if_neg (by push_neg; exact ⟨by positivity, by positivity⟩)]
    have e1 : (if rwi / 10 / |llx - urx| < 0 then rhi / 10 / |lly - ury|
        else rwi / 10 / |llx - urx|) = rwi / 10 / |llx - urx| :=
      if_neg (not_lt.mpr hsx.le)
    rw [e1]
    have e2 : (if rhi / 10 / |lly - ury| < 0 then rwi / 10 / |llx - urx|
        else rhi / 10 / |lly - ury|) = rhi / 10 / |lly - ury| :=
      if_neg (not_lt.mpr hsy.le)
    rw [e2]
    rw [if_neg (not_lt.mpr hsx.le)]
  · intro llx lly urx ury rwi hx hy hw
    have hax := habs llx urx hx
    have hay := habs lly ury hy
    have hsx : 0 < rwi / 10 / |llx - urx| := by positivity
    have hsy : (-1 : ℚ) / |lly - ury| < 0 := by
      apply div_neg_of_neg_of_pos _ hay
      norm_num
    unfold imgfileScale
    dsimp only
    rw [if_neg (by push_neg; refine ⟨by positivity, by norm_num, hx, hy⟩)]
    rw [if_neg (by push_neg; exact ⟨by positivity, ne_of_lt hsy⟩)]
    have e1 : (if rwi / 10 / |llx - urx| < 0 then -1 / |lly - ury|
        else rwi / 10 / |llx - urx|) = rwi / 10 / |llx - urx| :=
      if_neg (not_lt.mpr hsx.le)
    rw [e1]
    have e2 : (if (-1 : ℚ) / |lly - ury| < 0 then rwi / 10 / |llx - urx|
        else -1 / |lly - ury|) = rwi / 10 / |llx - urx| :=
      if_pos hsy
    rw [e2]
    rw [if_neg (not_lt.mpr hsx.le)]
  · intro llx lly urx ury rhi hx hy hh
    have hax := habs llx urx hx
    have hay := habs lly ury hy
    have hsx : (-1 : ℚ) / |llx - urx| < 0 := by
      apply div_neg_of_neg_of_pos _ hax
      norm_num
    have hsy : 0 < rhi / 10 / |lly - ury| := by positivity
    unfold imgfileScale
    dsimp only
    rw [if_neg (by push_neg; refine ⟨by norm_num, by positivity, hx, hy⟩)]
    rw [if_neg (by push_neg; exact ⟨ne_of_lt hsx, by positivity⟩)]
    have e1 : (if (-1 : ℚ) / |llx - urx| < 0 then rhi / 10 / |lly - ury|
        else -1 / |llx - urx|) = rhi / 10 / |lly - ury| :=
      if_pos hsx
    rw [e1]
    have e2 : (if rhi / 10 / |lly - ury| < 0 then rhi / 10 / |lly - ury|
        else rhi / 10 / |lly - ury|) = rhi / 10 / |lly - ury| :=
      if_neg (not_lt.mpr hsy.le)
    rw [e2]
    rw [if_neg (not_lt.mpr hsy.le)]
  · intro llx lly urx ury hx hy
    have hax := habs llx urx hx
    have hay := habs lly ury hy
    have hsx : (-1 : ℚ) / |llx - urx| < 0 := by
      apply div_neg_of_neg_of_pos _ hax
      norm_num
    have hsy : (-1 : ℚ) / |lly - ury| < 0 := by
      apply div_neg_of_neg_of_pos _ hay
      norm_num
    unfold imgfileScale
    dsimp only
    rw [if_neg (by push_neg; refine ⟨by norm_num, by norm_num, hx, hy⟩)]
    rw [if_neg (by push_neg; exact ⟨ne_of_lt hsx, ne_of_lt hsy⟩)]
    have e1 : (if (-1 : ℚ) / |llx - urx| < 0 then -1 / |lly - ury|
        else -1 / |llx - urx|) = -1 / |lly - ury| :=
      if_pos hsx
    rw [e1]
    have e2 : (if (-1 : ℚ) / |lly - ury| < 0 then -1 / |lly - ury|
        else -1 / |lly - ury|) = -1 / |lly - ury| :=
      if_pos hsy
    rw [e2]
    rw [if_pos hsy]
  · intro llx lly urx ury rwiA rhiA sx sy h
    unfold imgfileScaleSigned
    rw [h]
    refine ⟨rfl, rfl, rfl, rfl⟩

/-- C8 witness. -/
theorem imgfile_scale_spec_witness :
    imgfileScale 0 0 100 50 (some 200) (some 100) = some (1/5, 1/5)
    ∧ imgfileScale 0 0 100 50 (some 200) none = some (1/5, 1/5)
    ∧ imgfileScale 0 0 100 50 none (some 100) = some (1/5, 1/5)
    ∧ imgfileScale 0 0 100 50 none none = some (1, 1)
    ∧ imgfileScaleSigned FileType.PDF 0 0 100 50 none none = some (1, -1) :=
  ⟨by
    have := imgfile_scale_spec.1 0 0 100 50 200 100
      (by norm_num) (by norm_num) (by norm_num) (by norm_num)
    rw [this]; norm_num,
   by
    have := imgfile_scale_spec.2.1 0 0 100 50 200
      (by norm_num) (by norm_num) (by norm_num)
    rw [this]; norm_num,
   by
    have := imgfile_scale_spec.2.2.1 0 0 100 50 100
      (by norm_num) (by norm_num) (by norm_num)
    rw [this]; norm_num,
   imgfile_scale_spec.2.2.2.1 0 0 100 50 (by norm_num) (by norm_num),
   by
    have := (imgfile_scale_spec.2.2.2.2 0 0 100 50 none none 1 1
      (imgfile_scale_spec.2.2.2.1 0 0 100 50 (by norm_num) (by norm_num))).2.1
    exact this⟩

theorem shfill_spec (mode : Bool) (pc : PathClipper) (sc : ShadingCollab)
    (m : Matrix) (cs : ClippingStack) (params : List ℚ) :
    shfill mode pc sc m cs params =
      (shfillHeaderSpec params).map (fun oh =>
        match oh with
        | none => ⟨cs, [], none⟩
        | some hd => ⟨shfillClipEffect mode pc m cs hd.bbox,
                      (meshProcess sc hd.shadingType hd.cspace hd.mesh).1,
                      (meshProcess sc hd.shadingType hd.cspace hd.mesh).2⟩) := by
  unfold shfill shfillHeaderSpec
  split
  · rfl
  rcases params with - | ⟨p0, params⟩
  · rfl
  rcases params with - | ⟨p1, data0⟩
  · rfl
  dsimp only
  rcases h1 : take1 data0 with u | ⟨bgflag, d1⟩
  · rfl
  dsimp only
  rcases h2 : (if bgflag ≠ 0 then (takeN (components (decodeColorSpace p1)) d1).map Prod.snd
      else Except.ok d1) with u | d2
  · rfl
  dsimp only
  rcases h3 : take1 d2 with u | ⟨bbflag, d3⟩
  · rfl
  dsimp only
  split
  · rcases h4 : take1 d3 with u | ⟨x1, d4⟩
    · rfl
    dsimp only
    rcases h5 : take1 d4 with u | ⟨y1, d5⟩
    · rfl
    dsimp only
    rcases h6 : take1 d5 with u | ⟨x2, d6⟩
    · rfl
    dsimp only
    rcases h7 : take1 d6 with u | ⟨y2, d7⟩
    · rfl
    rfl
  · rfl

/-- C7: whenever the `shfill` parameter header parses (so execution
reaches the `try` block), `shfill` returns normally: the bounding-box
clip is installed and popped even when mesh decoding fails, the segments
emitted before a failure are exactly the output, and a decoding failure
surfaces only as the recoverable diagnostic — it never aborts the call. -/
theorem shfill_mesh_error_recovery (mode : Bool) (pc : PathClipper)
    (sc : ShadingCollab) (m : Matrix) (cs : ClippingStack) (params : List ℚ)
    (hd : ShfillHeader) (hh : shfillHeaderSpec params = Except.ok (some hd)) :
    shfill mode pc sc m cs params =
      Except.ok ⟨shfillClipEffect mode pc m cs hd.bbox,
                 (meshProcess sc hd.shadingType hd.cspace hd.mesh).1,
                 (meshProcess sc hd.shadingType hd.cspace hd.mesh).2⟩ := by
  rw [shfill_spec, hh]
  rfl

/-- C7 witness: a Coons mesh whose patch data is truncated after two
control points — `shfill` still returns normally, with no segments and
the incomplete-data diagnostic. -/
theorem shfill_mesh_error_recovery_witness :
    shfill false trivClipper trivShading Matrix.identity ⟨[], 0⟩
        [6, 3, 0, 0, 0, 1, 2, 3, 4] =
      Except.ok ⟨⟨[], 0⟩, [], some MeshErr.iter⟩ := by
  have h := shfill_mesh_error_recovery false trivClipper trivShading
    Matrix.identity ⟨[], 0⟩ [6, 3, 0, 0, 0, 1, 2, 3, 4]
    ⟨6, CSpace.rgb, none, [0, 1, 2, 3, 4]⟩ (by rfl)
  rw [h]
  have hmesh : meshProcess trivShading 6 CSpace.rgb [0, 1, 2, 3, 4] =
      ([], some MeshErr.iter) := by
    simp [meshProcess, processSeq, readPatchData, readPoints, readColors, take1,
      takeN, numPoints, numColors, castInt, components]
  simp [shfillClipEffect, hmesh]

/-- C9 (counterexample): `shfill` with the bounding-box flag set does not
restore the clip stack when it is non-empty before the call: on a stack
holding one gsave-origin entry with a clip path, the bbox clip goes
through `replace` (overwriting the top entry in place rather than
pushing), and the subsequent `pop()` then removes the entry entirely,
leaving an empty stack (size 0 instead of 1). -/
theorem shfill_clipstack_counterexample :
    ((shfill false trivClipper trivShading Matrix.identity
        ⟨[⟨some ⟨[PathCmd.moveto 5 5], WindingRule.nonzero⟩, none, 1, -1⟩], 1⟩
        [5, 3, 0, 1, 0, 0, 1, 1, 1]).map (fun o => o.clip.stack.length))
      = Except.ok 0
    ∧ (⟨[⟨some ⟨[PathCmd.moveto 5 5], WindingRule.nonzero⟩, none, 1, -1⟩], 1⟩ :
        ClippingStack).stack.length = 1 := by
  constructor
  · have h := shfill_spec false trivClipper trivShading Matrix.identity
      ⟨[⟨some ⟨[PathCmd.moveto 5 5], WindingRule.nonzero⟩, none, 1, -1⟩], 1⟩
      [5, 3, 0, 1, 0, 0, 1, 1, 1]
    rw [h]
    rw [show shfillHeaderSpec [5, 3, 0, 1, 0, 0, 1, 1, 1] =
        Except.ok (some ⟨5, CSpace.rgb, some (0, 0, 1, 1), [1]⟩) from rfl]
    simp only [Except.map, Except.ok.injEq]
    decide
  · rfl

/-- C9 (amended): with the bounding-box flag set, `shfill` installs the
temporary rectangle by replacing the top clip entry through `clip`
(pushing a fresh gsave-scoped entry only when the clip stack is empty)
and pops once with gsave policy after mesh processing.  The clip stack's
size, top path, and top identifier are restored when the stack was empty
immediately before the call; for a non-empty stack restoration is not
guaranteed: a gsave-origin top entry whose stored path differs from the
incoming rectangle is overwritten in place and then removed entirely by
the final pop, leaving only the entries below it. -/
theorem shfill_clipstack_restoration :
    (∀ (mode : Bool) (pc : PathClipper) (sc : ShadingCollab) (m : Matrix)
       (cs : ClippingStack) (params : List ℚ) (out : ShfillOut),
       cs.stack = [] → shfill mode pc sc m cs params = Except.ok out →
       out.clip.stack.length = cs.stack.length ∧ out.clip.topID = cs.topID ∧
       out.clip.path = cs.path)
    ∧ (∀ (pc : PathClipper) (sc : ShadingCollab) (m : Matrix)
         (cs : ClippingStack) (params : List ℚ) (out : ShfillOut)
         (hd : ShfillHeader) (x1 y1 x2 y2 : ℚ) (e : Entry) (rest : List Entry),
       shfillHeaderSpec params = Except.ok (some hd) →
       hd.bbox = some (x1, y1, x2, y2) →
       cs.stack = e :: rest → e.saveID < 0 → e.prependedPath = none →
       m.isIdentity = true → e.path ≠ some (bboxQuad x1 y1 x2 y2) →
       shfill false pc sc m cs params = Except.ok out →
       out.clip.stack = rest) := by
  have hpop : ∀ (cs2 : ClippingStack) (e2 : Entry) (r2 : List Entry),
      cs2.stack = e2 :: r2 → e2.saveID < 0 →
      (cs2.pop (-1) false).stack = r2 := by
    intro cs2 e2 r2 h2 hs2
    unfold ClippingStack.pop
    rw [h2]
    rw [if_neg (by simp), if_pos (by decide : (-1 : Int) < 0)]
    dsimp only
    rw [if_pos hs2]
    simp
  constructor
  · intro mode pc sc m cs params out hempty hrun
    obtain ⟨stk, mx⟩ := cs
    simp only at hempty
    subst hempty
    have key : ∀ bb, (shfillClipEffect mode pc m ⟨[], mx⟩ bb).stack = [] := by
      intro bb
      cases bb with
      | none => rfl
      | some q =>
        obtain ⟨x1, y1, x2, y2⟩ := q
        by_cases him : m.isIdentity <;>
          simp [shfillClipEffect, clipOp, ClippingStack.replace, ClippingStack.push,
            ClippingStack.pop, ClippingStack.prependedPath, ClippingStack.topID,
            bboxQuad, Path.transform, him]
    rw [shfill_spec] at hrun
    cases hh : shfillHeaderSpec params with
    | error u => rw [hh] at hrun; simp [Except.map] at hrun
    | ok oh =>
      rw [hh] at hrun
      simp only [Except.map, Except.ok.injEq] at hrun
      cases oh with
      | none =>
        rw [← hrun]
        exact ⟨rfl, rfl, rfl⟩
      | some hd =>
        rw [← hrun]
        have k := key hd.bbox
        refine ⟨?_, ?_, ?_⟩ <;>
          simp [ClippingStack.topID, ClippingStack.path, k]
  · intro pc sc m cs params out hd x1 y1 x2 y2 e rest hh hbb hcs hsv hpp hm hne hrun
    rw [shfill_spec, hh] at hrun
    simp only [Except.map, Except.ok.injEq] at hrun
    subst hrun
    show (shfillClipEffect false pc m cs hd.bbox).stack = rest
    rw [hbb]
    unfold shfillClipEffect
    dsimp only
    have hp : (bboxQuad x1 y1 x2 y2).cmds ≠ [] := by simp [bboxQuad]
    have hppcs : cs.prependedPath = none := by
      unfold ClippingStack.prependedPath
      rw [hcs]
      exact hpp
    unfold clipOp
    rw [if_neg hp]
    try dsimp
    rw [hm]
    try dsimp
    rw [hppcs]
    try dsimp
    have hrep : cs.replace ⟨(bboxQuad x1 y1 x2 y2).cmds, WindingRule.nonzero⟩ =
        ({ stack := { e with
              path := some ⟨(bboxQuad x1 y1 x2 y2).cmds, WindingRule.nonzero⟩,
              pathID := cs.maxID + 1 } :: rest,
           maxID := cs.maxID + 1 }, true) := by
      unfold ClippingStack.replace
      rw [hcs]
      dsimp only
      rw [if_neg (show ¬(e.path =
        some ⟨(bboxQuad x1 y1 x2 y2).cmds, WindingRule.nonzero⟩) from hne)]
    rw [hrep]
    dsimp only
    rw [if_pos rfl]
    exact hpop _ _ rest rfl hsv

/-- C9 witness: an empty clip stack is restored by a bbox-clipped
`shfill` call, and a one-entry stack holding a gsave-origin entry with a
different path ends with that entry removed (the empty list below it). -/
theorem shfill_clipstack_restoration_witness :
    ((⟨⟨[], 1⟩, [], none⟩ : ShfillOut).clip.stack.length =
        (⟨[], 0⟩ : ClippingStack).stack.length
      ∧ (⟨⟨[], 1⟩, [], none⟩ : ShfillOut).clip.topID =
          (⟨[], 0⟩ : ClippingStack).topID
      ∧ (⟨⟨[], 1⟩, [], none⟩ : ShfillOut).clip.path =
          (⟨[], 0⟩ : ClippingStack).path)
    ∧ (⟨⟨[], 2⟩, [], none⟩ : ShfillOut).clip.stack = [] :=
  ⟨shfill_clipstack_restoration.1 false trivClipper trivShading Matrix.identity
      ⟨[], 0⟩ [5, 3, 0, 1, 0, 0, 1, 1, 1] ⟨⟨[], 1⟩, [], none⟩ rfl rfl,
   shfill_clipstack_restoration.2 trivClipper trivShading Matrix.identity
      ⟨[⟨some ⟨[PathCmd.moveto 5 5], WindingRule.nonzero⟩, none, 1, -1⟩], 1⟩
      [5, 3, 0, 1, 0, 0, 1, 1, 1] ⟨⟨[], 2⟩, [], none⟩
      ⟨5, CSpace.rgb, some (0, 0, 1, 1), [1]⟩ 0 0 1 1
      ⟨some ⟨[PathCmd.moveto 5 5], WindingRule.nonzero⟩, none, 1, -1⟩ []
      rfl rfl rfl (by decide) rfl (by decide) (by decide) rfl⟩

end PsSpec
